import Mathlib

/-!
Verification of the measurement-dispatch engine `nvbench::state::exec`
(`src/nvbench/detail/state_exec.cuh`).

The dispatcher takes a compile-time tag set (selectors `cold`/`hot` and
modifiers `timer`/`sync`/`run_once`/`no_block`), consults three booleans of
the external benchmark state, and either recurses with a normalized tag set
or constructs and invokes the selected measurement strategies.  We embed the
tag algebra, the state interface and the recursive resolver, and record each
strategy construction/invocation as an explicit trace event.
-/

namespace HipBench

/-- Modelled from the spec: the tag algebra of `nvbench/exec_tag.cuh` (not in
the visible slice).  An execution tag set is a bitmask over the six recognized
flags: selectors `cold`, `hot` and modifiers `timer`, `sync`, `run_once`,
`no_block`.  We represent a well-formed tag set as one Boolean per flag. -/
@[ext]
structure ExecTags where
  cold : Bool
  hot : Bool
  timer : Bool
  sync : Bool
  run_once : Bool
  no_block : Bool
deriving DecidableEq, Fintype

/-- Bitwise intersection of tag sets (`tags & mask` in the source). -/
def ExecTags.and (a b : ExecTags) : ExecTags :=
  ⟨a.cold && b.cold, a.hot && b.hot, a.timer && b.timer,
   a.sync && b.sync, a.run_once && b.run_once, a.no_block && b.no_block⟩

/-- Bitwise union of tag sets (`tags | more` in the source). -/
def ExecTags.or (a b : ExecTags) : ExecTags :=
  ⟨a.cold || b.cold, a.hot || b.hot, a.timer || b.timer,
   a.sync || b.sync, a.run_once || b.run_once, a.no_block || b.no_block⟩

instance : AndOp ExecTags := ⟨ExecTags.and⟩

instance : OrOp ExecTags := ⟨ExecTags.or⟩

/-- Truthiness of a tag set (`if (tags)` / `if (!tags)` in the source): true
iff at least one flag bit is set. -/
def ExecTags.any (t : ExecTags) : Bool :=
  t.cold || t.hot || t.timer || t.sync || t.run_once || t.no_block

namespace exec_tag

/-- Modelled from the spec: the `cold` selector flag of `nvbench::exec_tag`. -/
def cold : ExecTags := ⟨true, false, false, false, false, false⟩

/-- Modelled from the spec: the `hot` selector flag of `nvbench::exec_tag`. -/
def hot : ExecTags := ⟨false, true, false, false, false, false⟩

/-- Modelled from the spec: the `timer` modifier flag. -/
def timer : ExecTags := ⟨false, false, true, false, false, false⟩

/-- Modelled from the spec: the `sync` modifier flag. -/
def sync : ExecTags := ⟨false, false, false, true, false, false⟩

/-- Modelled from the spec: the `run_once` modifier flag. -/
def run_once : ExecTags := ⟨false, false, false, false, true, false⟩

/-- Modelled from the spec: the `no_block` modifier flag. -/
def no_block : ExecTags := ⟨false, false, false, false, false, true⟩

/-- Modelled from the spec: the measurement-selector mask, `cold | hot`. -/
def measure_mask : ExecTags := cold ||| hot

/-- Modelled from the spec: the modifier mask,
`timer | sync | run_once | no_block`. -/
def modifier_mask : ExecTags := timer ||| sync ||| run_once ||| no_block

end exec_tag

/-- Modelled from the spec: the slice of the external benchmark state consulted
by `state::exec` — the three Boolean queries `get_run_once()`,
`get_disable_blocking_kernel()` and `is_skipped()`. -/
structure BenchState where
  get_run_once : Bool
  get_disable_blocking_kernel : Bool
  is_skipped : Bool
deriving DecidableEq, Fintype

/-- A trace event recording the construction and invocation of one measurement
strategy object by the terminal branches of `state::exec`:
`measure_cold` over the raw kernel launcher (`timer` bit set), `measure_cold`
over a `kernel_launch_timer_wrapper` around the launcher (`timer` bit clear),
or `measure_hot` over the raw launcher.  Each event records the fully-resolved
tag set of the constructing call frame and the `use_blocking_kernel` flag
passed to the strategy. -/
inductive Event where
  | measure_cold_direct (tags : ExecTags) (use_blocking_kernel : Bool)
  | measure_cold_wrapped (tags : ExecTags) (use_blocking_kernel : Bool)
  | measure_hot (tags : ExecTags) (use_blocking_kernel : Bool)
deriving DecidableEq

/-- Termination measure for the resolver recursion: each normalization step of
`state::exec` clears one of the three "still to do" conditions and introduces
none, so this weighted sum strictly decreases at every recursive call. -/
def resolveMeasure (tags : ExecTags) (st : BenchState) : Nat :=
  (if !tags.run_once && st.get_run_once then 4 else 0) +
  (if !tags.no_block && st.get_disable_blocking_kernel then 2 else 0) +
  (if !(tags.cold || tags.hot) then 1 else 0)

/-- The resolver `state::exec(tags, kernel_launcher)` of
`src/nvbench/detail/state_exec.cuh`, as a trace semantics: the returned list
records, in order, every measurement strategy constructed and invoked during
the call.  The branch structure mirrors the source line by line:
run-once normalization, blocking-kernel normalization, selector defaulting,
skip check, then the `cold` and `hot` terminal branches. -/
def exec (tags : ExecTags) (st : BenchState) : List Event :=
  if _h1 : !((tags &&& exec_tag.modifier_mask) &&& exec_tag.run_once).any &&
      st.get_run_once then
    exec ((tags &&& exec_tag.modifier_mask) ||| exec_tag.cold |||
      exec_tag.run_once) st
  else if _h2 : !((tags &&& exec_tag.modifier_mask) &&& exec_tag.no_block).any &&
      st.get_disable_blocking_kernel then
    exec (tags ||| exec_tag.no_block) st
  else if _h3 : !(tags &&& exec_tag.measure_mask).any then
    if _h4 : ((tags &&& exec_tag.modifier_mask) &&&
        (exec_tag.timer ||| exec_tag.sync)).any then
      exec (exec_tag.cold ||| tags) st
    else
      exec (exec_tag.cold ||| exec_tag.hot ||| tags) st
  else if st.is_skipped then
    []
  else
    (if (tags &&& exec_tag.cold).any then
      if (tags &&& exec_tag.timer).any then
        [Event.measure_cold_direct tags (!(tags &&& exec_tag.no_block).any)]
      else
        [Event.measure_cold_wrapped tags (!(tags &&& exec_tag.no_block).any)]
    else []) ++
    (if (tags &&& exec_tag.hot).any then
      [Event.measure_hot tags (!(tags &&& exec_tag.no_block).any)]
    else [])
termination_by resolveMeasure tags st
decreasing_by
  all_goals
    revert tags st
    decide

/-- The normalization-step relation of the resolver, read off the same guard
chain as `exec`: `recStep tags st = some tags'` when the call frame
`exec tags st` performs a recursive call with tag set `tags'`, and `none` when
the frame falls through to the skip check and the terminal branches. -/
def recStep (tags : ExecTags) (st : BenchState) : Option ExecTags :=
  if !((tags &&& exec_tag.modifier_mask) &&& exec_tag.run_once).any &&
      st.get_run_once then
    some ((tags &&& exec_tag.modifier_mask) ||| exec_tag.cold |||
      exec_tag.run_once)
  else if !((tags &&& exec_tag.modifier_mask) &&& exec_tag.no_block).any &&
      st.get_disable_blocking_kernel then
    some (tags ||| exec_tag.no_block)
  else if !(tags &&& exec_tag.measure_mask).any then
    if ((tags &&& exec_tag.modifier_mask) &&&
        (exec_tag.timer ||| exec_tag.sync)).any then
      some (exec_tag.cold ||| tags)
    else
      some (exec_tag.cold ||| exec_tag.hot ||| tags)
  else
    none

/-- Iterate `recStep` at most `fuel` times. -/
def resolveFuel : Nat → ExecTags → BenchState → ExecTags
  | 0, tags, _ => tags
  | n + 1, tags, st =>
    match recStep tags st with
    | some tags' => resolveFuel n tags' st
    | none => tags

/-- The canonical fully-resolved tag set of a request: at most three
normalization steps ever fire (run-once, no-block, selector defaulting), so
fuel 3 always suffices. -/
def resolve (tags : ExecTags) (st : BenchState) : ExecTags :=
  resolveFuel 3 tags st

/-- True when `t2` contains at least one flag bit that is absent from `t1`. -/
def addsNewBit (t1 t2 : ExecTags) : Bool :=
  (!t1.cold && t2.cold) || (!t1.hot && t2.hot) || (!t1.timer && t2.timer) ||
  (!t1.sync && t2.sync) || (!t1.run_once && t2.run_once) ||
  (!t1.no_block && t2.no_block)

/-- The tag rewrite performed by the run-once normalization step:
`modifier_tags | cold | run_once`. -/
def runOnceNormalize (t : ExecTags) : ExecTags :=
  (t &&& exec_tag.modifier_mask) ||| exec_tag.cold ||| exec_tag.run_once

/-- The tag rewrite performed by the blocking-kernel normalization step:
`tags | no_block`. -/
def noBlockNormalize (t : ExecTags) : ExecTags :=
  t ||| exec_tag.no_block

/-- The conjunction of the two `static_assert` conditions guarding the hot
terminal branch: `!(tags & sync)` and `!(tags & timer)`. -/
def hotStaticAssertsHold (tags : ExecTags) : Bool :=
  !(tags &&& exec_tag.sync).any && !(tags &&& exec_tag.timer).any

/-- Compile-time acceptance of one `state::exec` specialization: when the
`hot` terminal branch is instantiated for the tag set (the `hot` bit is set),
both of its static assertions must hold, otherwise compilation is rejected. -/
def specializationCompiles (tags : ExecTags) : Bool :=
  !(tags &&& exec_tag.hot).any || hotStaticAssertsHold tags

/-- True of the trace events that record a cold measurement strategy. -/
def Event.is_cold : Event → Bool
  | .measure_cold_direct _ _ => true
  | .measure_cold_wrapped _ _ => true
  | .measure_hot _ _ => false

/-- True of the trace events that record a hot measurement strategy. -/
def Event.is_hot : Event → Bool
  | .measure_hot _ _ => true
  | .measure_cold_direct _ _ => false
  | .measure_cold_wrapped _ _ => false

/-- One unfolding of the resolver: a call frame either recurses with the tag
set given by `recStep`, or falls through to the skip check and the terminal
cold/hot measurement branches. -/
theorem exec_recStep_eq (tags : ExecTags) (st : BenchState) :
    exec tags st =
      match recStep tags st with
      | some tags' => exec tags' st
      | none =>
        if st.is_skipped then []
        else
          (if (tags &&& exec_tag.cold).any then
            if (tags &&& exec_tag.timer).any then
              [Event.measure_cold_direct tags
                (!(tags &&& exec_tag.no_block).any)]
            else
              [Event.measure_cold_wrapped tags
                (!(tags &&& exec_tag.no_block).any)]
          else []) ++
          (if (tags &&& exec_tag.hot).any then
            [Event.measure_hot tags (!(tags &&& exec_tag.no_block).any)]
          else []) := by
  rw [exec.eq_def]
  simp only [recStep]
  split_ifs <;> simp

/-- A normalization step preserves the observable behaviour of the call:
the recursing frame returns exactly what the recursive call returns. -/
theorem exec_step (tags : ExecTags) (st : BenchState) (tags' : ExecTags)
    (h : recStep tags st = some tags') : exec tags st = exec tags' st := by
  rw [exec_recStep_eq, h]

/-- Iterating the normalization step any number of times preserves the
observable behaviour of the call. -/
theorem exec_resolveFuel (n : Nat) (tags : ExecTags) (st : BenchState) :
    exec tags st = exec (resolveFuel n tags st) st := by
  induction n generalizing tags with
  | zero => rfl
  | succ n ih =>
    cases h : recStep tags st with
    | some tags' => rw [exec_step tags st tags' h, resolveFuel, h]; exact ih tags'
    | none => rw [resolveFuel, h]

/-- The resolver's behaviour is determined by the canonical resolved tag set. -/
theorem exec_resolve (tags : ExecTags) (st : BenchState) :
    exec tags st = exec (resolve tags st) st :=
  exec_resolveFuel 3 tags st

/-- The canonical resolved tag set is a fixpoint: no further normalization
step fires on it. -/
theorem recStep_resolve_none :
    ∀ (tags : ExecTags) (st : BenchState), recStep (resolve tags st) st = none := by
  decide

/-- C1: when the `run_once` modifier is absent from the requested tags and the
external state reports run-once, the call frame recurses exactly once with
`modifier_tags | cold | run_once` — the caller's selector bits are not carried
over, so the recursed set's only selector is `cold` — and the frame returns
the recursion's result with no later resolution step executing. -/
theorem C1_run_once_normalization (tags : ExecTags) (st : BenchState)
    (habsent :
      ((tags &&& exec_tag.modifier_mask) &&& exec_tag.run_once).any = false)
    (hreq : st.get_run_once = true) :
    recStep tags st = some (runOnceNormalize tags) ∧
    exec tags st = exec (runOnceNormalize tags) st ∧
    runOnceNormalize tags &&& exec_tag.measure_mask = exec_tag.cold := by
  have hstep : recStep tags st = some (runOnceNormalize tags) := by
    simp [recStep, habsent, hreq, runOnceNormalize]
  refine ⟨hstep, exec_step tags st _ hstep, ?_⟩
  have key : ∀ t : ExecTags,
      runOnceNormalize t &&& exec_tag.measure_mask = exec_tag.cold := by decide
  exact key tags

/-- C1 witness: a caller passing the `hot` selector alone against a state with
run-once requested recurses with `cold | run_once`, whose selector component
is exactly `cold`. -/
theorem C1_run_once_normalization_witness :
    recStep exec_tag.hot ⟨true, false, false⟩ =
        some (runOnceNormalize exec_tag.hot) ∧
      exec exec_tag.hot ⟨true, false, false⟩ =
        exec (runOnceNormalize exec_tag.hot) ⟨true, false, false⟩ ∧
      runOnceNormalize exec_tag.hot &&& exec_tag.measure_mask = exec_tag.cold :=
  C1_run_once_normalization exec_tag.hot ⟨true, false, false⟩ (by decide) rfl

/-- C3: termination of the resolver recursion: every recursive step passes a
tag set containing at least one previously-absent flag bit, the canonical set
reached after at most three iterations of the step relation admits no further
step (so the recursion depth is bounded by the finitely many bits of the
algebra), and each step preserves the call's behaviour. -/
theorem C3_resolution_terminates (tags : ExecTags) (st : BenchState) :
    (∀ tags', recStep tags st = some tags' → addsNewBit tags tags' = true) ∧
    recStep (resolve tags st) st = none ∧
    (∀ tags', recStep tags st = some tags' → exec tags st = exec tags' st) := by
  refine ⟨?_, recStep_resolve_none tags st, fun t' h => exec_step tags st t' h⟩
  have key : ∀ (t : ExecTags) (s : BenchState),
      (recStep t s).all (addsNewBit t) = true := by decide
  intro t' h
  have h2 := key tags st
  rw [h, Option.all_some] at h2
  exact h2

/-- C3 witness: from `hot` against a run-once state, the single normalization
step adds the previously-absent `run_once` (and `cold`) bits and preserves the
call's behaviour. -/
theorem C3_resolution_terminates_witness :
    addsNewBit exec_tag.hot (exec_tag.cold ||| exec_tag.run_once) = true ∧
      exec exec_tag.hot ⟨true, false, false⟩ =
        exec (exec_tag.cold ||| exec_tag.run_once) ⟨true, false, false⟩ :=
  ⟨(C3_resolution_terminates exec_tag.hot ⟨true, false, false⟩).1 _ (by decide),
   (C3_resolution_terminates exec_tag.hot ⟨true, false, false⟩).2.2 _
     (by decide)⟩

/-- C6: if the external state reports "is skipped", the whole `exec` call
constructs and invokes zero measurement strategies: the trace is empty for
every tag set (every call frame that reaches the skip check returns before the
terminal branches). -/
theorem C6_skip_short_circuit (tags : ExecTags) (st : BenchState)
    (h : st.is_skipped = true) : exec tags st = [] := by
  rw [exec_resolve, exec_recStep_eq, recStep_resolve_none tags st]
  simp [h]

/-- C6 witness: a skipped state yields an empty trace for the default
(empty) tag request. -/
theorem C6_skip_short_circuit_witness :
    exec ⟨false, false, false, false, false, false⟩ ⟨false, false, true⟩ = [] :=
  C6_skip_short_circuit ⟨false, false, false, false, false, false⟩
    ⟨false, false, true⟩ rfl

/-- C9: resolution is deterministic and canonical: the call's behaviour is a
function of the canonical resolved tag set, that set is a fixpoint of the
normalization-step relation and canonicalization is idempotent, and the
run-once and no-block normalizations commute, so the canonical set does not
depend on which state flag triggers first. -/
theorem C9_deterministic_canonical (tags : ExecTags) (st : BenchState) :
    exec tags st = exec (resolve tags st) st ∧
    recStep (resolve tags st) st = none ∧
    resolve (resolve tags st) st = resolve tags st ∧
    runOnceNormalize (noBlockNormalize tags) =
      noBlockNormalize (runOnceNormalize tags) := by
  refine ⟨exec_resolve tags st, recStep_resolve_none tags st, ?_, ?_⟩
  · have key : ∀ (t : ExecTags) (s : BenchState),
        resolve (resolve t s) s = resolve t s := by decide
    exact key tags st
  · have key : ∀ t : ExecTags,
        runOnceNormalize (noBlockNormalize t) =
          noBlockNormalize (runOnceNormalize t) := by decide
    exact key tags

/-- C2: selector defaulting, for a call frame whose selector component is
empty and which the two earlier normalization guards let through: with the
`timer` or `sync` modifier present the frame recurses with `cold | tags`
(a set still without the `hot` selector); otherwise it recurses with
`cold | hot | tags`, whose selector component is the full measurement mask.
Either way the frame returns the recursion's result directly. -/
theorem C2_selector_defaulting (tags : ExecTags) (st : BenchState)
    (hsel : (tags &&& exec_tag.measure_mask).any = false)
    (hg1 : (!((tags &&& exec_tag.modifier_mask) &&& exec_tag.run_once).any &&
      st.get_run_once) = false)
    (hg2 : (!((tags &&& exec_tag.modifier_mask) &&& exec_tag.no_block).any &&
      st.get_disable_blocking_kernel) = false) :
    (((tags &&& exec_tag.modifier_mask) &&&
        (exec_tag.timer ||| exec_tag.sync)).any = true →
      exec tags st = exec (exec_tag.cold ||| tags) st ∧
      ((exec_tag.cold ||| tags) &&& exec_tag.hot).any = false) ∧
    (((tags &&& exec_tag.modifier_mask) &&&
        (exec_tag.timer ||| exec_tag.sync)).any = false →
      exec tags st = exec (exec_tag.cold ||| exec_tag.hot ||| tags) st ∧
      (exec_tag.cold ||| exec_tag.hot ||| tags) &&& exec_tag.measure_mask =
        exec_tag.measure_mask) := by
  constructor
  · intro hts
    refine ⟨exec_step tags st _ ?_, ?_⟩
    · simp [recStep, hg1, hg2, hsel, hts]
    · have key : ∀ t : ExecTags, (t &&& exec_tag.measure_mask).any = false →
          ((exec_tag.cold ||| t) &&& exec_tag.hot).any = false := by decide
      exact key tags hsel
  · intro hts
    refine ⟨exec_step tags st _ ?_, ?_⟩
    · simp [recStep, hg1, hg2, hsel, hts]
    · have key : ∀ t : ExecTags,
          (exec_tag.cold ||| exec_tag.hot ||| t) &&& exec_tag.measure_mask =
            exec_tag.measure_mask := by decide
      exact key tags

/-- C2 witness: a pure `timer` request against an all-false state defaults to
`cold | timer` and the recursed set has no `hot` bit; a pure `sync` request
shows the first branch as well, while an empty request defaults to both
selectors. -/
theorem C2_selector_defaulting_witness :
    (exec exec_tag.timer ⟨false, false, false⟩ =
        exec (exec_tag.cold ||| exec_tag.timer) ⟨false, false, false⟩ ∧
      ((exec_tag.cold ||| exec_tag.timer) &&& exec_tag.hot).any = false) ∧
    (exec ⟨false, false, false, false, false, false⟩ ⟨false, false, false⟩ =
        exec (exec_tag.cold ||| exec_tag.hot |||
          ⟨false, false, false, false, false, false⟩) ⟨false, false, false⟩ ∧
      (exec_tag.cold ||| exec_tag.hot |||
          ⟨false, false, false, false, false, false⟩) &&&
          exec_tag.measure_mask = exec_tag.measure_mask) :=
  ⟨(C2_selector_defaulting exec_tag.timer ⟨false, false, false⟩
      (by decide) (by decide) (by decide)).1 (by decide),
   (C2_selector_defaulting ⟨false, false, false, false, false, false⟩
      ⟨false, false, false⟩ (by decide) (by decide) (by decide)).2 (by decide)⟩

/-- C8: when the `no_block` modifier is absent, the state reports the blocking
kernel disabled, and the run-once normalization guard does not fire, the frame
recurses exactly once with `tags | no_block` — the recursed set is the
requested set with only the `no_block` bit added — and returns the recursion's
result directly. -/
theorem C8_no_block_normalization (tags : ExecTags) (st : BenchState)
    (habsent :
      ((tags &&& exec_tag.modifier_mask) &&& exec_tag.no_block).any = false)
    (hdis : st.get_disable_blocking_kernel = true)
    (hg1 : (!((tags &&& exec_tag.modifier_mask) &&& exec_tag.run_once).any &&
      st.get_run_once) = false) :
    recStep tags st = some (noBlockNormalize tags) ∧
    exec tags st = exec (noBlockNormalize tags) st ∧
    noBlockNormalize tags = { tags with no_block := true } := by
  have hstep : recStep tags st = some (noBlockNormalize tags) := by
    simp [recStep, hg1, habsent, hdis, noBlockNormalize]
  refine ⟨hstep, exec_step tags st _ hstep, ?_⟩
  have key : ∀ t : ExecTags,
      noBlockNormalize t = { t with no_block := true } := by decide
  exact key tags

/-- C8 witness: a `cold | sync | run_once` request against a state with the
blocking kernel disabled recurses with only the `no_block` bit added. -/
theorem C8_no_block_normalization_witness :
    recStep (exec_tag.cold ||| exec_tag.sync ||| exec_tag.run_once)
        ⟨true, true, false⟩ =
      some (noBlockNormalize
        (exec_tag.cold ||| exec_tag.sync ||| exec_tag.run_once)) ∧
    exec (exec_tag.cold ||| exec_tag.sync ||| exec_tag.run_once)
        ⟨true, true, false⟩ =
      exec (noBlockNormalize
        (exec_tag.cold ||| exec_tag.sync ||| exec_tag.run_once))
        ⟨true, true, false⟩ ∧
    noBlockNormalize (exec_tag.cold ||| exec_tag.sync ||| exec_tag.run_once) =
      { exec_tag.cold ||| exec_tag.sync ||| exec_tag.run_once with
        no_block := true } :=
  C8_no_block_normalization
    (exec_tag.cold ||| exec_tag.sync ||| exec_tag.run_once)
    ⟨true, true, false⟩ (by decide) rfl (by decide)

/-- C4: for a tag set containing the `hot` selector, combining it with `sync`
or `timer` is rejected at compile time (the instantiated hot branch's static
assertions fail); when `sync` and `timer` are absent both assertions hold,
and for a fully-resolved, non-skipped call the hot measurement strategy is
constructed and invoked (exactly one hot event, with `use_blocking_kernel`
the absence of `no_block`). -/
theorem C4_hot_static_assert (tags : ExecTags) (st : BenchState)
    (hhot : (tags &&& exec_tag.hot).any = true) :
    ((tags &&& (exec_tag.sync ||| exec_tag.timer)).any = true →
      specializationCompiles tags = false) ∧
    ((tags &&& exec_tag.sync).any = false →
      (tags &&& exec_tag.timer).any = false →
      hotStaticAssertsHold tags = true ∧
      (recStep tags st = none → st.is_skipped = false →
        (exec tags st).filter Event.is_hot =
          [Event.measure_hot tags (!(tags &&& exec_tag.no_block).any)])) := by
  constructor
  · intro hst
    have key : ∀ t : ExecTags, (t &&& exec_tag.hot).any = true →
        (t &&& (exec_tag.sync ||| exec_tag.timer)).any = true →
        specializationCompiles t = false := by decide
    exact key tags hhot hst
  · intro hs ht
    have key : ∀ t : ExecTags, (t &&& exec_tag.sync).any = false →
        (t &&& exec_tag.timer).any = false →
        hotStaticAssertsHold t = true := by decide
    refine ⟨key tags hs ht, ?_⟩
    intro hres hsk
    rw [exec_recStep_eq, hres]
    simp only [hsk, hhot, ht, Bool.false_eq_true, if_false, if_true]
    split_ifs <;> simp [Event.is_hot]

/-- C4 witness: `hot | timer` is rejected at compile time, while a plain
fully-resolved `hot` request passes both assertions and invokes exactly one
hot strategy with the blocking kernel enabled. -/
theorem C4_hot_static_assert_witness :
    specializationCompiles (exec_tag.hot ||| exec_tag.timer) = false ∧
      hotStaticAssertsHold exec_tag.hot = true ∧
      (exec exec_tag.hot ⟨false, false, false⟩).filter Event.is_hot =
        [Event.measure_hot exec_tag.hot true] :=
  ⟨(C4_hot_static_assert (exec_tag.hot ||| exec_tag.timer)
      ⟨false, false, false⟩ (by decide)).1 (by decide),
   ((C4_hot_static_assert exec_tag.hot ⟨false, false, false⟩
      (by decide)).2 (by decide) (by decide)).1,
   ((C4_hot_static_assert exec_tag.hot ⟨false, false, false⟩
      (by decide)).2 (by decide) (by decide)).2 (by decide) rfl⟩

/-- C5: for a fully-resolved, non-skipped call whose tag set contains the
`cold` selector, exactly one cold strategy is invoked: constructed directly
over the caller's launcher when `timer` is set, and over the kernel-launch
timer wrapper when `timer` is clear, in both cases with
`use_blocking_kernel` equal to the absence of the `no_block` bit. -/
theorem C5_cold_wrapper_selection (tags : ExecTags) (st : BenchState)
    (hres : recStep tags st = none) (hsk : st.is_skipped = false)
    (hcold : (tags &&& exec_tag.cold).any = true) :
    (exec tags st).filter Event.is_cold =
      [if (tags &&& exec_tag.timer).any then
        Event.measure_cold_direct tags (!(tags &&& exec_tag.no_block).any)
      else
        Event.measure_cold_wrapped tags (!(tags &&& exec_tag.no_block).any)] := by
  rw [exec_recStep_eq, hres]
  simp only [hsk, hcold, Bool.false_eq_true, if_false, if_true]
  split_ifs <;> simp [Event.is_cold]

/-- C5 witness: a fully-resolved `cold | timer` request constructs the cold
strategy directly over the launcher; a fully-resolved plain `cold` request
constructs it over the timer wrapper. -/
theorem C5_cold_wrapper_selection_witness :
    (exec (exec_tag.cold ||| exec_tag.timer)
        ⟨false, false, false⟩).filter Event.is_cold =
      [if ((exec_tag.cold ||| exec_tag.timer) &&& exec_tag.timer).any then
        Event.measure_cold_direct (exec_tag.cold ||| exec_tag.timer) true
      else
        Event.measure_cold_wrapped (exec_tag.cold ||| exec_tag.timer) true] :=
  C5_cold_wrapper_selection (exec_tag.cold ||| exec_tag.timer)
    ⟨false, false, false⟩ (by decide) rfl (by decide)

/-- C7: run-once precedence: against a non-skipped state reporting run-once,
a caller passing `hot` alone executes exactly one cold strategy — built over
the timer wrapper, on the canonical resolved set, which contains `run_once`
and `cold` but not `hot` — and no hot strategy ever executes. -/
theorem C7_run_once_precedence (st : BenchState)
    (hro : st.get_run_once = true) (hsk : st.is_skipped = false) :
    (exec exec_tag.hot st).filter Event.is_hot = [] ∧
    exec exec_tag.hot st =
      [Event.measure_cold_wrapped (resolve exec_tag.hot st)
        (!st.get_disable_blocking_kernel)] ∧
    ((resolve exec_tag.hot st) &&& exec_tag.run_once).any = true ∧
    ((resolve exec_tag.hot st) &&& exec_tag.cold).any = true ∧
    ((resolve exec_tag.hot st) &&& exec_tag.hot).any = false := by
  rcases st with ⟨ro, db, sk⟩
  simp only at hro hsk
  subst hro
  subst hsk
  cases db <;>
    simp [exec, resolve, resolveFuel, recStep, Event.is_hot, Event.is_cold,
      ExecTags.any, ExecTags.and, ExecTags.or, HAnd.hAnd, AndOp.and,
      HOr.hOr, OrOp.or, exec_tag.cold, exec_tag.hot, exec_tag.timer,
      exec_tag.sync, exec_tag.run_once, exec_tag.no_block,
      exec_tag.measure_mask, exec_tag.modifier_mask]

/-- C7 witness: with run-once requested and the blocking kernel enabled, a
bare `hot` request yields exactly one wrapped cold invocation and no hot
invocation. -/
theorem C7_run_once_precedence_witness :
    (exec exec_tag.hot ⟨true, false, false⟩).filter Event.is_hot = [] ∧
      exec exec_tag.hot ⟨true, false, false⟩ =
        [Event.measure_cold_wrapped
          (resolve exec_tag.hot ⟨true, false, false⟩) true] ∧
      ((resolve exec_tag.hot ⟨true, false, false⟩) &&&
        exec_tag.run_once).any = true ∧
      ((resolve exec_tag.hot ⟨true, false, false⟩) &&&
        exec_tag.cold).any = true ∧
      ((resolve exec_tag.hot ⟨true, false, false⟩) &&&
        exec_tag.hot).any = false :=
  C7_run_once_precedence ⟨true, false, false⟩ rfl rfl

/-- C10: a caller explicitly passing `run_once` together with `hot` (without
`sync`/`timer`, which would be rejected statically) bypasses the
run-once-implies-cold rule: the run-once guard does not fire, the `hot` bit
survives resolution, and the hot strategy is constructed and invoked even
though the state's run-once flag is active. -/
theorem C10_explicit_tags_bypass_run_once (tags : ExecTags) (st : BenchState)
    (hro : (tags &&& exec_tag.run_once).any = true)
    (hhot : (tags &&& exec_tag.hot).any = true)
    (hsync : (tags &&& exec_tag.sync).any = false)
    (htimer : (tags &&& exec_tag.timer).any = false)
    (hactive : st.get_run_once = true) (hsk : st.is_skipped = false) :
    (!((tags &&& exec_tag.modifier_mask) &&& exec_tag.run_once).any &&
      st.get_run_once) = false ∧
    ((resolve tags st) &&& exec_tag.hot).any = true ∧
    (exec tags st).filter Event.is_hot =
      [Event.measure_hot (resolve tags st)
        (!((resolve tags st) &&& exec_tag.no_block).any)] := by
  have hguard : ∀ b : Bool, (tags &&& exec_tag.run_once).any = true →
      (!((tags &&& exec_tag.modifier_mask) &&& exec_tag.run_once).any &&
        b) = false := by
    have key : ∀ (t : ExecTags) (b : Bool), (t &&& exec_tag.run_once).any = true →
        (!((t &&& exec_tag.modifier_mask) &&& exec_tag.run_once).any &&
          b) = false := by decide
    exact key tags
  have hhotres : ((resolve tags st) &&& exec_tag.hot).any = true := by
    have key : ∀ (t : ExecTags) (s : BenchState),
        (t &&& exec_tag.run_once).any = true →
        (t &&& exec_tag.hot).any = true →
        ((resolve t s) &&& exec_tag.hot).any = true := by decide
    exact key tags st hro hhot
  refine ⟨hguard st.get_run_once hro, hhotres, ?_⟩
  rw [exec_resolve, exec_recStep_eq, recStep_resolve_none tags st]
  simp only [hsk, hhotres, Bool.false_eq_true, if_false, if_true]
  split_ifs <;> simp [Event.is_hot]

/-- C10 witness: an explicit `hot | run_once` request against a run-once
state leaves the run-once guard unfired and invokes exactly one hot strategy
on the unchanged tag set. -/
theorem C10_explicit_tags_bypass_run_once_witness :
    (!(((exec_tag.hot ||| exec_tag.run_once) &&& exec_tag.modifier_mask) &&&
        exec_tag.run_once).any && true) = false ∧
      ((resolve (exec_tag.hot ||| exec_tag.run_once) ⟨true, false, false⟩) &&&
        exec_tag.hot).any = true ∧
      (exec (exec_tag.hot ||| exec_tag.run_once)
          ⟨true, false, false⟩).filter Event.is_hot =
        [Event.measure_hot
          (resolve (exec_tag.hot ||| exec_tag.run_once) ⟨true, false, false⟩)
          true] :=
  C10_explicit_tags_bypass_run_once (exec_tag.hot ||| exec_tag.run_once)
    ⟨true, false, false⟩ (by decide) (by decide) (by decide) (by decide)
    rfl rfl

end HipBench
